import Mathlib

/-!
Verification of the lookup-orchestration engine (engine/movie.go) of the
metatube-sdk-go repository: a shallow embedding of the data model, the cache
store, the provider interface and the four lookup operations, followed by
theorems settling the frozen claims about them.

The persistent store is modelled as a list of MovieInfo rows; the gorm
queries are modelled as pure lookups over that list. Concurrency in the
all-provider fan-out is modelled by a deterministic fold over the provider
registry: the claims under scrutiny are about which results are collected,
not about interleaving. Provider and store accesses are recorded in an
explicit event log so that bypass properties (cache hit means no provider
call) are provable.
-/

namespace MetaTube

/-- Full metadata record for one item, keyed by (provider, id). Fields are the
ones the engine reads: identifying fields plus a representative descriptive
field. Mirrors model.MovieInfo. -/
structure MovieInfo where
  provider : String
  id : String
  number : String
  title : String
deriving DecidableEq

/-- Lightweight projection of a MovieInfo, as returned by keyword search.
Mirrors model.MovieSearchResult. -/
structure MovieSearchResult where
  provider : String
  id : String
  number : String
  title : String
deriving DecidableEq

/-- Modelled from the spec: model.MovieInfo.Valid is not under src; per the
data-model section an Info is valid only when both ID and number are
non-empty. -/
def MovieInfo.Valid (m : MovieInfo) : Bool :=
  m.id != "" && m.number != ""

/-- Modelled from the spec: model.MovieSearchResult.Valid is not under src; a
search result is valid only if its identifying fields are non-empty. -/
def MovieSearchResult.Valid (r : MovieSearchResult) : Bool :=
  r.id != "" && r.number != ""

/-- Modelled from the spec: model.MovieInfo.ToSearchResult is not under src;
it projects the full record onto the search-result fields. -/
def MovieInfo.ToSearchResult (m : MovieInfo) : MovieSearchResult :=
  { provider := m.provider, id := m.id, number := m.number, title := m.title }

/-- Error kinds surfaced by the engine. providerErr carries a pass-through
provider error payload. -/
inductive Err where
  | invalidKeyword
  | invalidID
  | providerNotFound (name : String)
  | notFound
  | providerErr (msg : String)
deriving DecidableEq

/-- Decidable equality for fallible results over decidable payloads. -/
instance {ε α : Type} [DecidableEq ε] [DecidableEq α] : DecidableEq (Except ε α)
  | Except.ok a, Except.ok b =>
    if h : a = b then isTrue (by rw [h]) else isFalse (fun hh => by cases hh; exact h rfl)
  | Except.ok _, Except.error _ => isFalse (fun hh => by cases hh)
  | Except.error _, Except.ok _ => isFalse (fun hh => by cases hh)
  | Except.error u, Except.error v =>
    if h : u = v then isTrue (by rw [h]) else isFalse (fun hh => by cases hh; exact h rfl)

/-- Outcome of SearchMovieAll: a normal value, a named error, or a runtime
fault (the Go code dereferences a possibly-nil provider during ranking). -/
inductive Outcome (α : Type) where
  | ok (val : α)
  | error (e : Err)
  | panic
deriving DecidableEq

/-- Observable effects: provider-capability invocations and store accesses,
recorded in order. -/
inductive Event where
  | normalize (provider raw : String)
  | providerSearch (provider keyword : String)
  | providerFetch (provider id : String)
  | storeRead
  | storeWrite
deriving DecidableEq

/-- Provider capability object (section 6 of the spec): stable name, priority
weight, ID normalization, an optional keyword-search capability, and a
mandatory fetch-by-ID capability. -/
structure MovieProvider where
  name : String
  priority : ℚ
  normalizeID : String → String
  searcher : Option (String → Except Err (List MovieSearchResult))
  getMovieInfoByID : String → Except Err MovieInfo

/-- The cache store, modelled as the list of persisted rows in storage
order. -/
abbrev Store := List MovieInfo

/-- Modelled from the spec: the gorm upsert (Clauses OnConflict UpdateAll,
Create) keyed by (provider, id): overwrite the existing row with that key,
else append. -/
def upsert (store : Store) (info : MovieInfo) : Store :=
  if store.any (fun m => m.provider == info.provider && m.id == info.id) then
    store.map (fun m => if m.provider == info.provider && m.id == info.id then info else m)
  else
    store ++ [info]

/-- Uppercase a string character by character; models the SQL UPPER function
used by the gorm queries, and the case folding of the similarity scorer. -/
def upper (s : String) : String :=
  String.mk (s.toList.map Char.toUpper)

/-- Modelled from the spec: common/number.Trim is not under src; the spec
treats a keyword as invalid when it is empty or whitespace-only after
trimming, so Trim removes leading and trailing whitespace. -/
def Trim (s : String) : String :=
  String.mk (((s.toList.dropWhile Char.isWhitespace).reverse.dropWhile
    Char.isWhitespace).reverse)

/-- Modelled from the spec: common/number.Similarity is not under src; the
contract requires a deterministic score in the unit interval, case
insensitivity, robustness to separators, and the maximum score 1 on an exact
match after normalization. -/
def Similarity (keyword candidate : String) : ℚ :=
  if simClean keyword = simClean candidate then 1 else 0
where
  /-- Uppercase and drop separator characters. -/
  simClean (s : String) : String :=
    String.mk ((upper s).toList.filter (fun c => !(c == '-' || c == ' ')))

/-- Modelled from the spec: common/priority.Slice is not under src; Sort
orders pairs by descending weight, stable for ties, and Underlying drops the
weights. Realized by insertion sort with the reversed order. -/
def prioritySort (l : List (ℚ × MovieSearchResult)) : List (ℚ × MovieSearchResult) :=
  List.insertionSort (fun a b => b.1 ≤ a.1) l

/-- The gorm query of getMovieInfoByID: first row whose id and provider match
exactly. -/
def dbFirstByProviderID (store : Store) (providerName id : String) : Option MovieInfo :=
  store.find? (fun m => m.id == id && m.provider == providerName)

/-- The gorm query of searchMovie: first row of the given provider whose
number or id matches the keyword case-insensitively. -/
def dbFirstByProviderKeyword (store : Store) (providerName kw : String) : Option MovieInfo :=
  store.find? (fun m => m.provider == providerName &&
    (upper m.number == upper kw || upper m.id == upper kw))

/-- The gorm query of the lazy path of SearchMovieAll: all rows, of any
provider, whose number or id matches the keyword case-insensitively. -/
def lazyRows (store : Store) (kw : String) : List MovieInfo :=
  store.filter (fun m => upper m.number == upper kw || upper m.id == upper kw)

/-- The provider call of getMovieInfoByID together with its deferred
auto-save: on success the fetched record is upserted only when it is valid;
upsert errors are ignored; on failure the provider error is returned and the
store untouched. -/
def fetchAndSave (p : MovieProvider) (id : String) (store : Store) (log1 : List Event) :
    Except Err MovieInfo × Store × List Event :=
  match p.getMovieInfoByID id with
  | Except.ok info =>
    if info.Valid then
      (Except.ok info, upsert store info, log1 ++ [Event.providerFetch p.name id, Event.storeWrite])
    else
      (Except.ok info, store, log1 ++ [Event.providerFetch p.name id])
  | Except.error e => (Except.error e, store, log1 ++ [Event.providerFetch p.name id])

/-- Engine.getMovieInfoByID: normalize the raw ID (empty means ErrInvalidID);
when lazy, read the store by exact (id, provider) and return a found valid
row as-is; otherwise fetch from the provider with deferred validated
auto-save. -/
def getMovieInfoByID (rawID : String) (p : MovieProvider) (lazy : Bool) (store : Store) :
    Except Err MovieInfo × Store × List Event :=
  let id := p.normalizeID rawID
  if id = "" then
    (Except.error Err.invalidID, store, [Event.normalize p.name rawID])
  else if lazy then
    match dbFirstByProviderID store p.name id with
    | some m =>
      if m.Valid then
        (Except.ok m, store, [Event.normalize p.name rawID, Event.storeRead])
      else
        fetchAndSave p id store [Event.normalize p.name rawID, Event.storeRead]
    | none => fetchAndSave p id store [Event.normalize p.name rawID, Event.storeRead]
  else
    fetchAndSave p id store [Event.normalize p.name rawID]

/-- Engine.searchMovie: when the provider supports keyword search, optionally
consult the cache (lazy) and otherwise delegate to the provider verbatim;
when it does not, fall back to getMovieInfoByID with lazy hard-wired to true
and wrap the single record. -/
def searchMovie (kw : String) (p : MovieProvider) (lazy : Bool) (store : Store) :
    Except Err (List MovieSearchResult) × Store × List Event :=
  match p.searcher with
  | some search =>
    let log1 : List Event := if lazy then [Event.storeRead] else []
    match (if lazy then dbFirstByProviderKeyword store p.name kw else none) with
    | some m =>
      if m.Valid then
        (Except.ok [m.ToSearchResult], store, log1)
      else
        match search kw with
        | Except.ok rs => (Except.ok rs, store, log1 ++ [Event.providerSearch p.name kw])
        | Except.error e => (Except.error e, store, log1 ++ [Event.providerSearch p.name kw])
    | none =>
      match search kw with
      | Except.ok rs => (Except.ok rs, store, log1 ++ [Event.providerSearch p.name kw])
      | Except.error e => (Except.error e, store, log1 ++ [Event.providerSearch p.name kw])
  | none =>
    let r := getMovieInfoByID kw p true store
    match r.1 with
    | Except.ok info => (Except.ok [info.ToSearchResult], r.2.1, r.2.2)
    | Except.error e => (Except.error e, r.2.1, r.2.2)

/-- Engine.searchMovieAll without the public wrapper: the fan-out over a list
of registered providers with lazy disabled, collecting the result lists of
the successful providers and dropping erring providers; modelled as a fold
threading the store. -/
def searchMovieAllOver (kw : String) :
    List (String × MovieProvider) → Store → List MovieSearchResult × Store × List Event
  | [], store => ([], store, [])
  | (_, p) :: ps, store =>
    let r := searchMovie kw p false store
    let rest := searchMovieAllOver kw ps r.2.1
    match r.1 with
    | Except.ok rs => (rs ++ rest.1, rest.2.1, r.2.2 ++ rest.2.2)
    | Except.error _ => (rest.1, rest.2.1, r.2.2 ++ rest.2.2)

/-- The ranking loop of the deferred post-processing of SearchMovieAll:
results failing validation are skipped; for the rest the provider registry is
indexed by the result provider name with no membership check, the Go map
yielding nil for an unknown name, on which the Priority call faults. The
fault is modelled as none. -/
def rankWeights (reg : List (String × MovieProvider)) (kw : String) :
    List MovieSearchResult → Option (List (ℚ × MovieSearchResult))
  | [] => some []
  | r :: rs =>
    if r.Valid then
      match reg.lookup r.provider with
      | none => none
      | some p =>
        (rankWeights reg kw rs).map (fun t => (Similarity kw r.number * p.priority, r) :: t)
    else
      rankWeights reg kw rs

/-- The deferred block of SearchMovieAll: with a nil error, an empty result
list becomes ErrNotFound; otherwise the results are filtered by validity,
weighted, and sorted by descending weight. -/
def postOutcome (reg : List (String × MovieProvider)) (kw : String)
    (results : List MovieSearchResult) : Outcome (List MovieSearchResult) :=
  if results.isEmpty then
    Outcome.error Err.notFound
  else
    match rankWeights reg kw results with
    | none => Outcome.panic
    | some pairs => Outcome.ok ((prioritySort pairs).map Prod.snd)

/-- The engine: the provider registry as an association list with distinct
names (a Go map); the store is threaded separately as explicit state. -/
structure Engine where
  movieProviders : List (String × MovieProvider)

/-- Engine.SearchMovie: trim the keyword (empty means ErrInvalidKeyword),
resolve the provider (unknown means the provider-not-found error), then
search through that provider. -/
def Engine.SearchMovie (e : Engine) (keyword name : String) (lazy : Bool) (store : Store) :
    Except Err (List MovieSearchResult) × Store × List Event :=
  let kw := Trim keyword
  if kw = "" then
    (Except.error Err.invalidKeyword, store, [])
  else
    match e.movieProviders.lookup name with
    | none => (Except.error (Err.providerNotFound name), store, [])
    | some p => searchMovie kw p lazy store

/-- Engine.SearchMovieAll: trim the keyword; when lazy, query the store
across all providers and, when rows are found, use them as the results;
otherwise fan out over every registered provider; in all non-error return
paths the deferred post-processing applies. -/
def Engine.SearchMovieAll (e : Engine) (keyword : String) (lazy : Bool) (store : Store) :
    Outcome (List MovieSearchResult) × Store × List Event :=
  let kw := Trim keyword
  if kw = "" then
    (Outcome.error Err.invalidKeyword, store, [])
  else if lazy then
    if (lazyRows store kw).isEmpty then
      let r := searchMovieAllOver kw e.movieProviders store
      (postOutcome e.movieProviders kw r.1, r.2.1, Event.storeRead :: r.2.2)
    else
      (postOutcome e.movieProviders kw ((lazyRows store kw).map MovieInfo.ToSearchResult),
        store, [Event.storeRead])
  else
    let r := searchMovieAllOver kw e.movieProviders store
    (postOutcome e.movieProviders kw r.1, r.2.1, r.2.2)

/-- Engine.GetMovieInfoByID: resolve the provider first (unknown means the
provider-not-found error, before any normalization), then run the internal
fetch. -/
def Engine.GetMovieInfoByID (e : Engine) (id name : String) (lazy : Bool) (store : Store) :
    Except Err MovieInfo × Store × List Event :=
  match e.movieProviders.lookup name with
  | none => (Except.error (Err.providerNotFound name), store, [])
  | some p => getMovieInfoByID id p lazy store

/-- The ranking comparison is total, as required by the sortedness of
insertion sort. -/
instance : IsTotal (ℚ × MovieSearchResult) (fun a b => b.1 ≤ a.1) :=
  ⟨fun a b => le_total b.1 a.1⟩

/-- The ranking comparison is transitive, as required by the sortedness of
insertion sort. -/
instance : IsTrans (ℚ × MovieSearchResult) (fun a b => b.1 ≤ a.1) :=
  ⟨fun _ _ _ hab hbc => le_trans hbc hab⟩

/-! Concrete providers, engines and store rows used by the counterexamples
and the witnesses. -/

/-- A search result with an empty number, hence failing validation. -/
def invalidResult : MovieSearchResult :=
  { provider := "A", id := "x", number := "", title := "" }

/-- Provider A: keyword search returns a single invalid result. -/
def provA : MovieProvider :=
  { name := "A", priority := 1, normalizeID := fun s => s,
    searcher := some (fun _ => Except.ok [invalidResult]),
    getMovieInfoByID := fun _ => Except.error (Err.providerErr "nofetch") }

/-- Provider B: keyword search returns no results; priority 2. -/
def provB : MovieProvider :=
  { name := "B", priority := 2, normalizeID := fun s => s,
    searcher := some (fun _ => Except.ok []),
    getMovieInfoByID := fun _ => Except.error (Err.providerErr "nofetch") }

/-- Provider E: keyword search always fails. -/
def provErr : MovieProvider :=
  { name := "E", priority := 1, normalizeID := fun s => s,
    searcher := some (fun _ => Except.error (Err.providerErr "boom")),
    getMovieInfoByID := fun _ => Except.error (Err.providerErr "boom") }

/-- Provider P: no keyword search; fetch succeeds but yields a record with an
empty number, which fails validation. -/
def provP : MovieProvider :=
  { name := "P", priority := 1, normalizeID := fun s => s,
    searcher := none,
    getMovieInfoByID := fun idv =>
      Except.ok { provider := "P", id := idv, number := "", title := "" } }

/-- Provider Q: no keyword search; fetch always fails. -/
def provQ : MovieProvider :=
  { name := "Q", priority := 1, normalizeID := fun s => s,
    searcher := none,
    getMovieInfoByID := fun _ => Except.error (Err.providerErr "boom") }

/-- Provider R: no keyword search; fetch always fails, so any successful
result must come from the cache. -/
def provR : MovieProvider :=
  { name := "R", priority := 1, normalizeID := fun s => s,
    searcher := none,
    getMovieInfoByID := fun _ => Except.error (Err.providerErr "nofetch") }

/-- Engine with the single provider A. -/
def engA : Engine := { movieProviders := [("A", provA)] }

/-- Engine with the single provider B. -/
def engB : Engine := { movieProviders := [("B", provB)] }

/-- Engine with providers A (priority 1) and B (priority 2). -/
def engAB : Engine := { movieProviders := [("A", provA), ("B", provB)] }

/-- Engine with the single provider P. -/
def engP : Engine := { movieProviders := [("P", provP)] }

/-- Engine with the single provider Q. -/
def engQ : Engine := { movieProviders := [("Q", provQ)] }

/-- Engine with the single provider R. -/
def engR : Engine := { movieProviders := [("R", provR)] }

/-- Engine with no registered provider. -/
def engEmpty : Engine := { movieProviders := [] }

/-- The invalid record fetched by provider P for the raw ID x1. -/
def badInfoP : MovieInfo := { provider := "P", id := "x1", number := "", title := "" }

/-- A valid stored row of provider A with number ZZZ-999. -/
def rowA : MovieInfo := { provider := "A", id := "K1", number := "ZZZ-999", title := "t1" }

/-- A valid stored row of provider B with the same number as rowA. -/
def rowB : MovieInfo := { provider := "B", id := "K2", number := "ZZZ-999", title := "t2" }

/-- A valid stored row whose provider X is not registered anywhere. -/
def rowX : MovieInfo := { provider := "X", id := "K9", number := "K9", title := "" }

/-- A valid stored row of provider R with id k7. -/
def rowR : MovieInfo := { provider := "R", id := "k7", number := "K-007", title := "t" }

/-! Helper lemmas. -/

/-- The fetch-with-auto-save step either leaves the store unchanged or
upserts exactly the successfully fetched, valid record. -/
theorem fetchAndSave_store (p : MovieProvider) (id : String) (store : Store) (lg : List Event) :
    (fetchAndSave p id store lg).2.1 = store ∨
    ∃ info, (fetchAndSave p id store lg).1 = Except.ok info ∧ info.Valid = true ∧
      (fetchAndSave p id store lg).2.1 = upsert store info := by
  unfold fetchAndSave
  cases hf : p.getMovieInfoByID id with
  | ok info =>
    by_cases hv : info.Valid = true
    · exact Or.inr ⟨info, by simp [hv], hv, by simp [hv]⟩
    · simp [hv]
  | error e2 => simp

/-- When the fetch step reports an error, the store is untouched. -/
theorem fetchAndSave_error_store {p : MovieProvider} {id : String} {store : Store}
    {lg : List Event} {e2 : Err}
    (h : (fetchAndSave p id store lg).1 = Except.error e2) :
    (fetchAndSave p id store lg).2.1 = store := by
  unfold fetchAndSave at h ⊢
  cases hf : p.getMovieInfoByID id with
  | ok info =>
    rw [hf] at h
    by_cases hv : info.Valid = true <;> simp [hv] at h
  | error e3 => simp

/-- Branch equation: an unrecognized raw ID fails with the invalid-ID error
before touching the store or the provider. -/
theorem getMovieInfoByID_invalid {raw : String} {p : MovieProvider} {lazy : Bool}
    {store : Store} (h0 : p.normalizeID raw = "") :
    getMovieInfoByID raw p lazy store =
      (Except.error Err.invalidID, store, [Event.normalize p.name raw]) := by
  unfold getMovieInfoByID
  rw [if_pos h0]

/-- Branch equation: with lazy disabled the internal fetch goes straight to
the provider with auto-save. -/
theorem getMovieInfoByID_not_lazy {raw : String} {p : MovieProvider} {store : Store}
    (h0 : p.normalizeID raw ≠ "") :
    getMovieInfoByID raw p false store =
      fetchAndSave p (p.normalizeID raw) store [Event.normalize p.name raw] := by
  unfold getMovieInfoByID
  rw [if_neg h0]
  exact rfl

/-- Branch equation: a lazy cache hit on a valid record returns it with no
provider call and no store write. -/
theorem getMovieInfoByID_lazy_hit {raw : String} {p : MovieProvider} {store : Store}
    {m : MovieInfo} (h0 : p.normalizeID raw ≠ "")
    (hdb : dbFirstByProviderID store p.name (p.normalizeID raw) = some m)
    (hv : m.Valid = true) :
    getMovieInfoByID raw p true store =
      (Except.ok m, store, [Event.normalize p.name raw, Event.storeRead]) := by
  unfold getMovieInfoByID
  rw [if_neg h0, if_pos rfl, hdb]
  exact if_pos hv

/-- Branch equation: a lazy cache miss (no row, or an invalid row) falls
through to the provider with auto-save. -/
theorem getMovieInfoByID_lazy_miss {raw : String} {p : MovieProvider} {store : Store}
    (h0 : p.normalizeID raw ≠ "")
    (hdb : ∀ m, dbFirstByProviderID store p.name (p.normalizeID raw) = some m →
      m.Valid = false) :
    getMovieInfoByID raw p true store =
      fetchAndSave p (p.normalizeID raw) store
        [Event.normalize p.name raw, Event.storeRead] := by
  unfold getMovieInfoByID
  rw [if_neg h0, if_pos rfl]
  cases hd : dbFirstByProviderID store p.name (p.normalizeID raw) with
  | some m =>
    dsimp only
    rw [hdb m hd]
    exact rfl
  | none => rfl

/-- When the internal fetch-by-ID reports an error, the store is untouched. -/
theorem getMovieInfoByID_error_store {raw : String} {p : MovieProvider} {lazy : Bool}
    {store : Store} {e2 : Err}
    (h : (getMovieInfoByID raw p lazy store).1 = Except.error e2) :
    (getMovieInfoByID raw p lazy store).2.1 = store := by
  by_cases h0 : p.normalizeID raw = ""
  · rw [getMovieInfoByID_invalid h0]
  · cases lazy with
    | false =>
      rw [getMovieInfoByID_not_lazy h0] at h ⊢
      exact fetchAndSave_error_store h
    | true =>
      cases hdb : dbFirstByProviderID store p.name (p.normalizeID raw) with
      | some m =>
        by_cases hv : m.Valid = true
        · rw [getMovieInfoByID_lazy_hit h0 hdb hv] at h
          simp at h
        · have hmiss : ∀ m2, dbFirstByProviderID store p.name (p.normalizeID raw) = some m2 →
              m2.Valid = false := by
            intro m2 hm2
            rw [hdb] at hm2
            cases hm2
            simpa using hv
          rw [getMovieInfoByID_lazy_miss h0 hmiss] at h ⊢
          exact fetchAndSave_error_store h
      | none =>
        have hmiss : ∀ m2, dbFirstByProviderID store p.name (p.normalizeID raw) = some m2 →
            m2.Valid = false := by
          intro m2 hm2
          rw [hdb] at hm2
          cases hm2
        rw [getMovieInfoByID_lazy_miss h0 hmiss] at h ⊢
        exact fetchAndSave_error_store h

/-- Branch equation: with a searcher present, the store is never written by
the per-provider search. -/
theorem searchMovie_snd_of_searcher {kw : String} {p : MovieProvider} {lazy : Bool}
    {store : Store} (hs : p.searcher ≠ none) :
    (searchMovie kw p lazy store).2.1 = store := by
  unfold searchMovie
  cases hsx : p.searcher with
  | none => exact absurd hsx hs
  | some search =>
    dsimp only
    cases hhit : (if lazy then dbFirstByProviderKeyword store p.name kw else none) with
    | some m =>
      dsimp only
      by_cases hv : m.Valid = true
      · rw [if_pos hv]
      · rw [if_neg hv]
        cases search kw <;> rfl
    | none =>
      dsimp only
      cases search kw <;> rfl

/-- Branch equation: without a searcher, the per-provider search is the
internal fetch with lazy hard-wired on, wrapped as a one-element list. -/
theorem searchMovie_of_no_searcher {kw : String} {p : MovieProvider} {lazy : Bool}
    {store : Store} (hs : p.searcher = none) :
    searchMovie kw p lazy store =
      (match (getMovieInfoByID kw p true store).1 with
       | Except.ok info => Except.ok [info.ToSearchResult]
       | Except.error e2 => Except.error e2,
       (getMovieInfoByID kw p true store).2.1,
       (getMovieInfoByID kw p true store).2.2) := by
  unfold searchMovie
  rw [hs]
  dsimp only
  cases hg : (getMovieInfoByID kw p true store).1 <;> rfl

/-- When the per-provider search reports an error, the store is untouched. -/
theorem searchMovie_error_store {kw : String} {p : MovieProvider} {lazy : Bool}
    {store : Store} {e2 : Err}
    (h : (searchMovie kw p lazy store).1 = Except.error e2) :
    (searchMovie kw p lazy store).2.1 = store := by
  cases hs : p.searcher with
  | some search => exact searchMovie_snd_of_searcher (by simp [hs])
  | none =>
    rw [searchMovie_of_no_searcher hs] at h ⊢
    dsimp only at h ⊢
    cases hg : (getMovieInfoByID kw p true store).1 with
    | ok info => rw [hg] at h; simp at h
    | error e3 => exact getMovieInfoByID_error_store hg

/-- The deferred block reports an error exactly when the pre-filtering result
list is empty, and then the error is the not-found error. -/
theorem postOutcome_error_iff (reg : List (String × MovieProvider)) (kw : String)
    (rs : List MovieSearchResult) (e2 : Err) :
    postOutcome reg kw rs = Outcome.error e2 ↔ rs = [] ∧ e2 = Err.notFound := by
  unfold postOutcome
  cases rs with
  | nil => simp [eq_comm]
  | cons a l =>
    simp only [List.isEmpty_cons, Bool.false_eq_true, if_false]
    cases h : rankWeights reg kw (a :: l) <;> simp

/-- The deferred block reports a value exactly when the result list is
non-empty and every valid result has a registered provider; the value is the
weighted results sorted by descending weight. -/
theorem postOutcome_ok {reg : List (String × MovieProvider)} {kw : String}
    {rs out : List MovieSearchResult}
    (h : postOutcome reg kw rs = Outcome.ok out) :
    ∃ pairs, rankWeights reg kw rs = some pairs ∧
      out = (prioritySort pairs).map Prod.snd := by
  unfold postOutcome at h
  cases rs with
  | nil => simp at h
  | cons a l =>
    simp only [List.isEmpty_cons, Bool.false_eq_true, if_false] at h
    cases hr : rankWeights reg kw (a :: l) with
    | none => rw [hr] at h; simp at h
    | some pairs =>
      rw [hr] at h
      simp only [Outcome.ok.injEq] at h
      exact ⟨pairs, rfl, h.symm⟩

/-- Every pair produced by the ranking loop carries a result that passed
validation. -/
theorem rankWeights_valid {reg : List (String × MovieProvider)} {kw : String} :
    ∀ {l : List MovieSearchResult} {pairs : List (ℚ × MovieSearchResult)},
      rankWeights reg kw l = some pairs → ∀ q ∈ pairs, q.2.Valid = true
  | [], pairs, h, q, hq => by
    simp only [rankWeights, Option.some.injEq] at h
    subst h; cases hq
  | r :: rs, pairs, h, q, hq => by
    rw [rankWeights] at h
    by_cases hv : r.Valid = true
    · rw [if_pos hv] at h
      cases hreg : reg.lookup r.provider with
      | none => rw [hreg] at h; cases h
      | some p =>
        rw [hreg] at h
        cases ht : rankWeights reg kw rs with
        | none => rw [ht] at h; cases h
        | some t =>
          rw [ht] at h
          dsimp only [Option.map] at h
          cases h
          cases hq with
          | head => exact hv
          | tail _ hq2 => exact rankWeights_valid ht q hq2
    · rw [if_neg hv] at h
      exact rankWeights_valid h q hq

/-- The ranking loop faults whenever some valid result names an unregistered
provider. -/
theorem rankWeights_none_of_unregistered {reg : List (String × MovieProvider)} {kw : String} :
    ∀ {l : List MovieSearchResult} {r : MovieSearchResult}, r ∈ l → r.Valid = true →
      reg.lookup r.provider = none → rankWeights reg kw l = none
  | a :: l, r, hm, hv, hreg => by
    rw [rankWeights]
    cases hm with
    | head => rw [if_pos hv, hreg]
    | tail _ hm2 =>
      by_cases hva : a.Valid = true
      · rw [if_pos hva]
        cases hra : reg.lookup a.provider with
        | none => rfl
        | some p => rw [rankWeights_none_of_unregistered hm2 hv hreg]; rfl
      · rw [if_neg hva]
        exact rankWeights_none_of_unregistered hm2 hv hreg

/-- A list whose elements match a predicate at most once finds a matching
member first. -/
theorem find_eq_of_mem_unique {α : Type} {l : List α} {p : α → Bool} {m : α}
    (hm : m ∈ l) (hpm : p m = true) (huniq : ∀ x ∈ l, p x = true → x = m) :
    l.find? p = some m := by
  induction l with
  | nil => cases hm
  | cons a t ih =>
    by_cases ha : p a = true
    · rw [List.find?_cons_of_pos _ ha, huniq a (List.mem_cons_self a t) ha]
    · rw [List.find?_cons_of_neg _ ha]
      have hm2 : m ∈ t := by
        cases List.mem_cons.mp hm with
        | inl hh => exact absurd (hh ▸ hpm) ha
        | inr hh => exact hh
      exact ih hm2 (fun x hx hpx => huniq x (List.mem_cons_of_mem _ hx) hpx)

/-- The tail store of the fan-out fold. -/
theorem searchMovieAllOver_cons_snd (kw n : String) (p : MovieProvider)
    (ps : List (String × MovieProvider)) (store : Store) :
    (searchMovieAllOver kw ((n, p) :: ps) store).2.1 =
    (searchMovieAllOver kw ps (searchMovie kw p false store).2.1).2.1 := by
  simp only [searchMovieAllOver]
  cases hx : (searchMovie kw p false store).1 <;> simp

/-- Whenever SearchMovieAll returns a value, that value is the deferred
post-processing of some intermediate result list. -/
theorem SearchMovieAll_ok (e : Engine) (kw : String) (lazy : Bool) (store : Store)
    (rs : List MovieSearchResult)
    (hok : (e.SearchMovieAll kw lazy store).1 = Outcome.ok rs) :
    ∃ results pairs, rankWeights e.movieProviders (Trim kw) results = some pairs ∧
      rs = (prioritySort pairs).map Prod.snd := by
  unfold Engine.SearchMovieAll at hok
  by_cases hkw : Trim kw = ""
  · rw [if_pos hkw] at hok
    exact Outcome.noConfusion hok
  · rw [if_neg hkw] at hok
    cases lazy with
    | false =>
      rw [if_neg Bool.false_ne_true] at hok
      dsimp only at hok
      obtain ⟨pairs, h1, h2⟩ := postOutcome_ok hok
      exact ⟨_, pairs, h1, h2⟩
    | true =>
      rw [if_pos rfl] at hok
      by_cases hrows : (lazyRows store (Trim kw)).isEmpty = true
      · rw [if_pos hrows] at hok
        dsimp only at hok
        obtain ⟨pairs, h1, h2⟩ := postOutcome_ok hok
        exact ⟨_, pairs, h1, h2⟩
      · rw [if_neg hrows] at hok
        dsimp only at hok
        obtain ⟨pairs, h1, h2⟩ := postOutcome_ok hok
        exact ⟨_, pairs, h1, h2⟩

/-! Claim theorems. -/

/-- Claim C9 (confirmed): a keyword that is empty after trimming makes both
SearchMovie and SearchMovieAll fail with the invalid-keyword error; the
store is returned unchanged and the empty event log shows that no provider
capability and no store access happens before the failure. -/
theorem C9_empty_keyword_rejected (e : Engine) (kw name : String) (lazy : Bool)
    (store : Store) (h : Trim kw = "") :
    e.SearchMovie kw name lazy store = (Except.error Err.invalidKeyword, store, []) ∧
    e.SearchMovieAll kw lazy store = (Outcome.error Err.invalidKeyword, store, []) := by
  constructor
  · simp only [Engine.SearchMovie]
    rw [if_pos h]
  · simp only [Engine.SearchMovieAll]
    rw [if_pos h]

/-- Witness for C9 at the whitespace-only keyword. -/
theorem C9_witness :
    Trim "   " = "" ∧
    engA.SearchMovie "   " "A" false [] = (Except.error Err.invalidKeyword, [], []) ∧
    engA.SearchMovieAll "   " true [] = (Outcome.error Err.invalidKeyword, [], []) :=
  ⟨by decide,
   (C9_empty_keyword_rejected engA "   " "A" false [] (by decide)).1,
   (C9_empty_keyword_rejected engA "   " "A" true [] (by decide)).2⟩

/-- Claim C10 (confirmed): an unregistered provider name makes SearchMovie
(with a non-empty trimmed keyword) and GetMovieInfoByID fail with the
provider-not-found error carrying that name; the conclusion holds for every
raw ID with an empty event log, so the failure of GetMovieInfoByID precedes
any ID normalization. -/
theorem C10_provider_not_found (e : Engine) (kw name : String) (lazy : Bool) (store : Store)
    (hname : e.movieProviders.lookup name = none) (hkw : Trim kw ≠ "") :
    e.SearchMovie kw name lazy store =
      (Except.error (Err.providerNotFound name), store, []) ∧
    ∀ id, e.GetMovieInfoByID id name lazy store =
      (Except.error (Err.providerNotFound name), store, []) := by
  constructor
  · simp only [Engine.SearchMovie]
    rw [if_neg hkw, hname]
  · intro id
    simp only [Engine.GetMovieInfoByID]
    rw [hname]

/-- Witness for C10 at the unknown provider name Z. -/
theorem C10_witness :
    engA.movieProviders.lookup "Z" = none ∧ Trim "abc" ≠ "" ∧
    engA.SearchMovie "abc" "Z" false [] =
      (Except.error (Err.providerNotFound "Z"), [], []) ∧
    engA.GetMovieInfoByID "x" "Z" true [] =
      (Except.error (Err.providerNotFound "Z"), [], []) :=
  ⟨rfl, by decide,
   (C10_provider_not_found engA "abc" "Z" false [] rfl (by decide)).1,
   (C10_provider_not_found engA "abc" "Z" true [] rfl (by decide)).2 "x"⟩

/-- Claim C4 (confirmed): when the provider does not support keyword search,
searchMovie ignores the caller lazy flag entirely (the fallback invokes the
fetch path with lazy hard-wired on), so even with lazy disabled a valid
cached record whose key is (provider, normalized keyword) is returned from
the store, with no provider-fetch event in the log. -/
theorem C4_fallback_forces_lazy (kw : String) (p : MovieProvider) (store : Store)
    (m : MovieInfo)
    (hs : p.searcher = none)
    (hnid : p.normalizeID kw ≠ "")
    (hfind : dbFirstByProviderID store p.name (p.normalizeID kw) = some m)
    (hv : m.Valid = true) :
    (∀ lazy, searchMovie kw p lazy store = searchMovie kw p true store) ∧
    searchMovie kw p false store =
      (Except.ok [m.ToSearchResult], store,
        [Event.normalize p.name kw, Event.storeRead]) := by
  have hhit := getMovieInfoByID_lazy_hit hnid hfind hv
  constructor
  · intro lazy
    rw [searchMovie_of_no_searcher hs, searchMovie_of_no_searcher hs]
  · rw [searchMovie_of_no_searcher hs, hhit]

/-- Witness for C4 with provider R and the cached row rowR. -/
theorem C4_witness :
    (∀ lazy, searchMovie "k7" provR lazy [rowR] = searchMovie "k7" provR true [rowR]) ∧
    searchMovie "k7" provR false [rowR] =
      (Except.ok [rowR.ToSearchResult], [rowR],
        [Event.normalize provR.name "k7", Event.storeRead]) :=
  C4_fallback_forces_lazy "k7" provR [rowR] rowR rfl (by decide) (by decide) (by decide)

/-- Claim C5 (confirmed): with lazy enabled, a registered provider, and a
store with unique (provider, id) keys holding a valid record whose key is
exactly (provider, normalizedID), GetMovieInfoByID returns that record, the
store unchanged, and a log with no provider-fetch and no store-write
event. -/
theorem C5_lazy_cache_hit (e : Engine) (raw name : String) (store : Store)
    (p : MovieProvider) (m : MovieInfo)
    (hp : e.movieProviders.lookup name = some p)
    (hnid : p.normalizeID raw ≠ "")
    (huniq : store.Pairwise (fun a b => ¬(a.provider = b.provider ∧ a.id = b.id)))
    (hm : m ∈ store) (hid : m.id = p.normalizeID raw) (hprov : m.provider = p.name)
    (hv : m.Valid = true) :
    e.GetMovieInfoByID raw name true store =
      (Except.ok m, store, [Event.normalize p.name raw, Event.storeRead]) := by
  have hpm : (fun x : MovieInfo => x.id == p.normalizeID raw && x.provider == p.name) m
      = true := by
    simp [hid, hprov]
  have huniq2 : ∀ x ∈ store,
      (fun x : MovieInfo => x.id == p.normalizeID raw && x.provider == p.name) x = true →
      x = m := by
    intro x hx hpx
    by_cases hxm : x = m
    · exact hxm
    · exfalso
      have hsym : Symmetric (fun a b : MovieInfo =>
          ¬(a.provider = b.provider ∧ a.id = b.id)) := by
        intro a b hab hc
        exact hab ⟨hc.1.symm, hc.2.symm⟩
      have hr := huniq.forall hsym hx hm hxm
      simp only [Bool.and_eq_true, beq_iff_eq] at hpx
      exact hr ⟨hpx.2.trans hprov.symm, hpx.1.trans hid.symm⟩
  have hfind : dbFirstByProviderID store p.name (p.normalizeID raw) = some m := by
    unfold dbFirstByProviderID
    exact find_eq_of_mem_unique hm hpm huniq2
  simp only [Engine.GetMovieInfoByID]
  rw [hp]
  exact getMovieInfoByID_lazy_hit hnid hfind hv

/-- Witness for C5 with provider R and the cached row rowR. -/
theorem C5_witness :
    engR.GetMovieInfoByID "k7" "R" true [rowR] =
      (Except.ok rowR, [rowR], [Event.normalize provR.name "k7", Event.storeRead]) :=
  C5_lazy_cache_hit engR "k7" "R" [rowR] provR rowR rfl (by decide) (by simp)
    (by simp) rfl rfl (by decide)

/-- Claim C7 (confirmed): when the provider fetch-by-ID capability fails,
GetMovieInfoByID surfaces exactly that error and leaves the store unchanged
(no upsert on the error path); with lazy enabled this holds whenever the
cache lookup does not produce a valid record. -/
theorem C7_provider_error_passthrough (e : Engine) (raw name : String) (lazy : Bool)
    (store : Store) (p : MovieProvider) (perr : Err)
    (hp : e.movieProviders.lookup name = some p)
    (hnid : p.normalizeID raw ≠ "")
    (hfetch : p.getMovieInfoByID (p.normalizeID raw) = Except.error perr)
    (hmiss : lazy = true →
      ∀ m, dbFirstByProviderID store p.name (p.normalizeID raw) = some m →
        m.Valid = false) :
    (e.GetMovieInfoByID raw name lazy store).1 = Except.error perr ∧
    (e.GetMovieInfoByID raw name lazy store).2.1 = store := by
  have hfs : ∀ lg, fetchAndSave p (p.normalizeID raw) store lg =
      (Except.error perr, store,
        lg ++ [Event.providerFetch p.name (p.normalizeID raw)]) := by
    intro lg
    unfold fetchAndSave
    rw [hfetch]
  simp only [Engine.GetMovieInfoByID]
  rw [hp]
  dsimp only
  cases lazy with
  | false =>
    rw [getMovieInfoByID_not_lazy hnid, hfs]
    exact ⟨rfl, rfl⟩
  | true =>
    rw [getMovieInfoByID_lazy_miss hnid (hmiss rfl), hfs]
    exact ⟨rfl, rfl⟩

/-- Witness for C7 with the always-failing provider Q. -/
theorem C7_witness :
    (engQ.GetMovieInfoByID "x1" "Q" false []).1 = Except.error (Err.providerErr "boom") ∧
    (engQ.GetMovieInfoByID "x1" "Q" false []).2.1 = [] :=
  C7_provider_error_passthrough engQ "x1" "Q" false [] provQ (Err.providerErr "boom")
    rfl (by decide) rfl (fun h => nomatch h)

/-- Claim C3 counterexample: provider P successfully fetches a record with an
empty number, so Info.Valid is false on it; yet GetMovieInfoByID returns it
to the caller with no error, and the fallback path of SearchMovie returns
its projection — an invalid fetched Info does reach callers of these two
operations, contradicting the claim that it never appears in their
results. -/
theorem C3_counterexample :
    (engP.GetMovieInfoByID "x1" "P" false []).1 = Except.ok badInfoP ∧
    badInfoP.Valid = false ∧
    (engP.SearchMovie "x1" "P" false []).1 = Except.ok [badInfoP.ToSearchResult] ∧
    MovieSearchResult.Valid badInfoP.ToSearchResult = false := by
  with_unfolding_all decide

/-- Claim C3 (corrected): an Info failing validation is never upserted into
the store — any store change performed by the internal fetch is the upsert
of a valid fetched record — and SearchMovieAll never returns an invalid
result, its deferred post-processing filtering them out; however such an
Info is returned by GetMovieInfoByID, and by SearchMovie on its fallback
path, when the provider fetch succeeds, as the counterexample shows. -/
theorem C3_no_invalid_persisted (raw : String) (p : MovieProvider) (lazy : Bool)
    (store : Store) :
    ((getMovieInfoByID raw p lazy store).2.1 = store ∨
      ∃ info, (getMovieInfoByID raw p lazy store).1 = Except.ok info ∧
        info.Valid = true ∧
        (getMovieInfoByID raw p lazy store).2.1 = upsert store info) ∧
    (∀ (e : Engine) kw lzy st2 rs, (e.SearchMovieAll kw lzy st2).1 = Outcome.ok rs →
      ∀ r2 ∈ rs, r2.Valid = true) := by
  constructor
  · by_cases h0 : p.normalizeID raw = ""
    · rw [getMovieInfoByID_invalid h0]
      exact Or.inl rfl
    · cases lazy with
      | false =>
        rw [getMovieInfoByID_not_lazy h0]
        exact fetchAndSave_store p (p.normalizeID raw) store _
      | true =>
        cases hdb : dbFirstByProviderID store p.name (p.normalizeID raw) with
        | some m =>
          by_cases hv : m.Valid = true
          · rw [getMovieInfoByID_lazy_hit h0 hdb hv]
            exact Or.inl rfl
          · have hmiss : ∀ m2,
                dbFirstByProviderID store p.name (p.normalizeID raw) = some m2 →
                m2.Valid = false := by
              intro m2 hm2
              rw [hdb] at hm2
              cases hm2
              simpa using hv
            rw [getMovieInfoByID_lazy_miss h0 hmiss]
            exact fetchAndSave_store p (p.normalizeID raw) store _
        | none =>
          have hmiss : ∀ m2,
              dbFirstByProviderID store p.name (p.normalizeID raw) = some m2 →
              m2.Valid = false := by
            intro m2 hm2
            rw [hdb] at hm2
            cases hm2
          rw [getMovieInfoByID_lazy_miss h0 hmiss]
          exact fetchAndSave_store p (p.normalizeID raw) store _
  · intro e kw lzy st2 rs hok r2 hr2
    obtain ⟨results, pairs, hrw, hout⟩ := SearchMovieAll_ok e kw lzy st2 rs hok
    subst hout
    obtain ⟨q, hq, rfl⟩ := List.mem_map.mp hr2
    have hqp : q ∈ pairs := by
      have := List.mem_insertionSort (fun a b : ℚ × MovieSearchResult => b.1 ≤ a.1)
        (l := pairs) (x := q)
      unfold prioritySort at hq
      exact this.mp hq
    exact rankWeights_valid hrw q hqp

/-- Witness for C3: a lazy cache hit flows through the post-processing and
yields only valid results. -/
theorem C3_witness :
    (engB.SearchMovieAll "ZZZ-999" true [rowB]).1 = Outcome.ok [rowB.ToSearchResult] ∧
    (∀ r2 ∈ [rowB.ToSearchResult], r2.Valid = true) :=
  ⟨by with_unfolding_all decide,
   fun r2 hr2 => (C3_no_invalid_persisted "x" provP false []).2 engB "ZZZ-999" true [rowB]
     [rowB.ToSearchResult] (by with_unfolding_all decide) r2 hr2⟩

/-- Claim C1 counterexample: a provider whose search succeeds with a single
invalid result makes the pre-filter list non-empty, so the not-found check
does not fire, the validation filter then removes everything, and
SearchMovieAll returns an empty list with no error — not the not-found
error the claim requires. -/
theorem C1_counterexample :
    (engA.SearchMovieAll "ABC" false []).1 = Outcome.ok [] ∧
    (engA.SearchMovieAll "ABC" false []).1 ≠ Outcome.error Err.notFound := by
  with_unfolding_all decide

/-- Claim C1 (corrected): with lazy disabled and a non-empty trimmed
keyword, SearchMovieAll fails with the not-found error exactly when the
concatenated provider results are empty BEFORE validation filtering; when
providers return only invalid results the list is non-empty, so the
operation instead returns an empty result list with no error. -/
theorem C1_notfound_iff_empty_prefilter (e : Engine) (kw : String) (store : Store)
    (h : Trim kw ≠ "") :
    (e.SearchMovieAll kw false store).1 = Outcome.error Err.notFound ↔
      (searchMovieAllOver (Trim kw) e.movieProviders store).1 = [] := by
  unfold Engine.SearchMovieAll
  rw [if_neg h, if_neg Bool.false_ne_true]
  dsimp only
  constructor
  · intro hh
    exact ((postOutcome_error_iff _ _ _ _).mp hh).1
  · intro hh
    rw [hh]
    rfl

/-- Witness for C1 at a provider returning no results. -/
theorem C1_witness :
    Trim "ABC" ≠ "" ∧
    (engB.SearchMovieAll "ABC" false []).1 = Outcome.error Err.notFound :=
  ⟨by decide,
   (C1_notfound_iff_empty_prefilter engB "ABC" [] (by decide)).mpr
     (by with_unfolding_all decide)⟩

/-- Claim C2 counterexample: with lazy enabled and two matching valid cached
rows in storage order rowA then rowB, SearchMovieAll does not return them in
storage order — the deferred post-processing still ranks them, and the row
of the higher-priority provider B comes first — so the lazy cache path does
not bypass the ranking step. -/
theorem C2_counterexample :
    lazyRows [rowA, rowB] (Trim "ZZZ-999") = [rowA, rowB] ∧
    (engAB.SearchMovieAll "ZZZ-999" true [rowA, rowB]).1 =
      Outcome.ok [rowB.ToSearchResult, rowA.ToSearchResult] ∧
    (engAB.SearchMovieAll "ZZZ-999" true [rowA, rowB]).1 ≠
      Outcome.ok [rowA.ToSearchResult, rowB.ToSearchResult] := by
  with_unfolding_all decide

/-- Claim C2 (corrected): with lazy enabled and a non-empty cache answer,
SearchMovieAll converts each row to a search result and returns without
invoking any provider — the store is unchanged and the log holds a single
store-read event — but the rows then pass through the deferred
post-processing: validation filtering and the similarity-priority ranking
apply, yielding the weighted rows sorted stably by descending weight (a
permutation of the weighted rows), not necessarily the storage order. -/
theorem C2_lazy_hit_is_ranked (e : Engine) (kw : String) (store : Store)
    (h1 : Trim kw = kw) (h2 : kw ≠ "") (h3 : lazyRows store kw ≠ []) :
    e.SearchMovieAll kw true store =
      (postOutcome e.movieProviders kw
        ((lazyRows store kw).map MovieInfo.ToSearchResult), store, [Event.storeRead]) ∧
    ∀ pairs,
      rankWeights e.movieProviders kw
        ((lazyRows store kw).map MovieInfo.ToSearchResult) = some pairs →
      (e.SearchMovieAll kw true store).1 =
        Outcome.ok ((prioritySort pairs).map Prod.snd) ∧
      (prioritySort pairs).Perm pairs ∧
      (prioritySort pairs).Pairwise (fun a b => b.1 ≤ a.1) := by
  have hne : (lazyRows store kw).isEmpty ≠ true := by
    cases hrows : lazyRows store kw with
    | nil => exact absurd hrows h3
    | cons a l => simp
  have hmain : e.SearchMovieAll kw true store =
      (postOutcome e.movieProviders kw
        ((lazyRows store kw).map MovieInfo.ToSearchResult), store, [Event.storeRead]) := by
    unfold Engine.SearchMovieAll
    rw [h1, if_neg h2, if_pos rfl, if_neg hne]
  refine ⟨hmain, ?_⟩
  intro pairs hpairs
  refine ⟨?_, ?_, ?_⟩
  · rw [hmain]
    dsimp only
    unfold postOutcome
    have hne2 : ((lazyRows store kw).map MovieInfo.ToSearchResult).isEmpty ≠ true := by
      cases hrows : lazyRows store kw with
      | nil => exact absurd hrows h3
      | cons a l => simp [hrows]
    rw [if_neg hne2, hpairs]
  · exact List.perm_insertionSort _ pairs
  · exact List.sorted_insertionSort _ pairs

/-- Witness for C2 with the two cached rows of providers A and B. -/
theorem C2_witness :
    engAB.SearchMovieAll "ZZZ-999" true [rowA, rowB] =
      (postOutcome engAB.movieProviders "ZZZ-999"
        ((lazyRows [rowA, rowB] "ZZZ-999").map MovieInfo.ToSearchResult),
        [rowA, rowB], [Event.storeRead]) :=
  (C2_lazy_hit_is_ranked engAB "ZZZ-999" [rowA, rowB] (by decide) (by decide)
    (by decide)).1

/-- Claim C6 (confirmed): in the fan-out with lazy disabled, a provider
whose per-provider search errors contributes nothing — removing it from the
registry changes neither the collected results nor the final store — and
the overall operation can fail only with the not-found error, exactly when
the concatenated successful results are empty, hence only when their
filtered union is empty as well. -/
theorem C6_partial_failure :
    (∀ (kw : String) (pre : List (String × MovieProvider)) (name2 : String)
        (p : MovieProvider) (post : List (String × MovieProvider)) (store : Store),
      (∃ err, (searchMovie kw p false
          (searchMovieAllOver kw pre store).2.1).1 = Except.error err) →
      (searchMovieAllOver kw (pre ++ (name2, p) :: post) store).1 =
        (searchMovieAllOver kw (pre ++ post) store).1 ∧
      (searchMovieAllOver kw (pre ++ (name2, p) :: post) store).2.1 =
        (searchMovieAllOver kw (pre ++ post) store).2.1) ∧
    (∀ (e : Engine) (kw : String) (store : Store) (err : Err), Trim kw ≠ "" →
      (e.SearchMovieAll kw false store).1 = Outcome.error err →
      err = Err.notFound ∧
      (searchMovieAllOver (Trim kw) e.movieProviders store).1 = []) := by
  constructor
  · intro kw pre name2 p post store
    induction pre generalizing store with
    | nil =>
      intro herr
      obtain ⟨err, herr⟩ := herr
      dsimp only [searchMovieAllOver] at herr
      have hst : (searchMovie kw p false store).2.1 = store :=
        searchMovie_error_store herr
      constructor
      · simp only [List.nil_append, searchMovieAllOver]
        rw [herr, hst]
      · simp only [List.nil_append, searchMovieAllOver]
        rw [herr, hst]
    | cons q pre2 ih =>
      intro herr
      obtain ⟨qn, qp⟩ := q
      rw [searchMovieAllOver_cons_snd] at herr
      have ihm := ih ((searchMovie kw qp false store).2.1) herr
      constructor
      · simp only [List.cons_append, searchMovieAllOver]
        cases hq : (searchMovie kw qp false store).1 with
        | ok rs => dsimp only; simp only [List.append_eq]; rw [ihm.1]
        | error e2 => dsimp only; simp only [List.append_eq]; rw [ihm.1]
      · simp only [List.cons_append, searchMovieAllOver]
        cases hq : (searchMovie kw qp false store).1 with
        | ok rs => dsimp only; simp only [List.append_eq]; rw [ihm.2]
        | error e2 => dsimp only; simp only [List.append_eq]; rw [ihm.2]
  · intro e kw store err hkw herrall
    unfold Engine.SearchMovieAll at herrall
    rw [if_neg hkw, if_neg Bool.false_ne_true] at herrall
    dsimp only at herrall
    have hh := (postOutcome_error_iff _ _ _ _).mp herrall
    exact ⟨hh.2, hh.1⟩

/-- Witness for C6 with the erring provider E alone. -/
theorem C6_witness :
    (searchMovieAllOver "K" ([] ++ ("E", provErr) :: []) []).1 =
      (searchMovieAllOver "K" ([] ++ []) []).1 ∧
    (searchMovieAllOver "K" ([] ++ ("E", provErr) :: []) []).2.1 =
      (searchMovieAllOver "K" ([] ++ []) []).2.1 :=
  C6_partial_failure.1 "K" [] "E" provErr [] []
    ⟨Err.providerErr "boom", by decide⟩

/-- Claim C8 (confirmed): the ranking step indexes the registry with the
result provider name and no membership check; through the lazy cache path a
valid stored row with an unregistered provider reaches it (the lazy query
does not filter by registration), and SearchMovieAll faults — the Go code
calls Priority on a nil interface — instead of returning a value or a named
error. -/
theorem C8_unregistered_provider_panic (e : Engine) (kw : String) (store : Store)
    (m : MovieInfo)
    (h1 : Trim kw = kw) (h2 : kw ≠ "")
    (hm : m ∈ lazyRows store kw)
    (hv : m.Valid = true)
    (hreg : e.movieProviders.lookup m.provider = none) :
    (e.SearchMovieAll kw true store).1 = Outcome.panic := by
  have hne : (lazyRows store kw).isEmpty ≠ true := by
    cases hrows : lazyRows store kw with
    | nil => rw [hrows] at hm; cases hm
    | cons a l => simp
  unfold Engine.SearchMovieAll
  rw [h1, if_neg h2, if_pos rfl, if_neg hne]
  dsimp only
  unfold postOutcome
  have hne2 : ((lazyRows store kw).map MovieInfo.ToSearchResult).isEmpty ≠ true := by
    cases hrows : lazyRows store kw with
    | nil => rw [hrows] at hm; cases hm
    | cons a l => simp [hrows]
  rw [if_neg hne2]
  have hmem : m.ToSearchResult ∈ (lazyRows store kw).map MovieInfo.ToSearchResult :=
    List.mem_map_of_mem _ hm
  have hv2 : MovieSearchResult.Valid m.ToSearchResult = true := hv
  have hreg2 : e.movieProviders.lookup (MovieSearchResult.provider m.ToSearchResult)
      = none := hreg
  rw [rankWeights_none_of_unregistered hmem hv2 hreg2]

/-- Witness for C8: the row of the unregistered provider X makes the lazy
path of SearchMovieAll fault. -/
theorem C8_witness : (engEmpty.SearchMovieAll "K9" true [rowX]).1 = Outcome.panic :=
  C8_unregistered_provider_panic engEmpty "K9" [rowX] rowX (by decide) (by decide)
    (by decide) (by decide) rfl

end MetaTube
